import Mathlib

/-!
Verification of the ChronoChat authentication/session-management subsystem
(`Backend/app/services/auth.py`, `Backend/app/core/config.py`,
`Backend/app/api/routes/auth.py`).

The durable store (SQLAlchemy over PostgreSQL) is embedded as explicit lists
of user and session rows; the Redis cache as an association list with TTLs;
each `AuthService` coroutine becomes a pure function from a state to a result
paired with the post-state (the post-state reflects everything committed
before the operation returned or raised).  Wall-clock time is an explicit
`now : Nat` parameter in seconds; randomness (uuid4 session tokens, fresh JWT
issue times) is modelled by a monotone counter `ctr` threaded through the
state, so two values drawn from the counter are never equal.

`app/core/security.py` and `app/models/user.py` are not part of the source
tree available here; the Token Codec, the Credential Verifier and the row
defaults are modelled from the spec (sections 3, 4.1, 4.2) and marked so in
their doc comments.
-/

namespace ChronoChat

/-! ### Settings (`Backend/app/core/config.py`) -/

/-- `Settings.ACCESS_TOKEN_EXPIRE_MINUTES = 30`. -/
def ACCESS_TOKEN_EXPIRE_MINUTES : Nat := 30

/-- `Settings.REFRESH_TOKEN_EXPIRE_DAYS = 7`. -/
def REFRESH_TOKEN_EXPIRE_DAYS : Nat := 7

/-- `Settings.MAX_SESSIONS_PER_USER = 5`. -/
def MAX_SESSIONS_PER_USER : Nat := 5

/-! ### Token codec (modelled from the spec, section 4.1) -/

/-- Token kind claim: `access` or `refresh`. -/
inductive TokenKind where
  | access
  | refresh
deriving DecidableEq

/-- Modelled from the spec: `app/core/security.py` is missing from the
source tree.  A token is a signed, self-contained set of claims
(`subject`, `user id`, `kind`, `expires_at`); `nonce` stands for the
issue-time/randomness component that makes two separately issued tokens
distinct strings, and `signed` records whether the signature verifies. -/
structure Tok where
  sub : String
  user_id : Nat
  kind : TokenKind
  exp : Nat
  nonce : Nat
  signed : Bool
deriving DecidableEq

/-- Modelled from the spec: `security.create_access_token(data, expires_delta)`.
`delta` is the lifetime in seconds (defaults to
`ACCESS_TOKEN_EXPIRE_MINUTES` minutes at the call sites that omit it). -/
def create_access_token (sub : String) (uid : Nat) (delta : Nat) (now nonce : Nat) : Tok :=
  { sub := sub, user_id := uid, kind := .access, exp := now + delta,
    nonce := nonce, signed := true }

/-- Modelled from the spec: `security.create_refresh_token(data)`, lifetime
`REFRESH_TOKEN_EXPIRE_DAYS` days. -/
def create_refresh_token (sub : String) (uid : Nat) (now nonce : Nat) : Tok :=
  { sub := sub, user_id := uid, kind := .refresh,
    exp := now + REFRESH_TOKEN_EXPIRE_DAYS * 86400, nonce := nonce, signed := true }

/-- Modelled from the spec: `security.verify_token(token, expected_kind)`
succeeds iff the signature matches, the kind matches and the token has not
expired. -/
def verify_token (t : Tok) (k : TokenKind) (now : Nat) : Bool :=
  t.signed && decide (t.kind = k) && decide (now < t.exp)

/-! ### Credential verifier (modelled from the spec, section 4.2) -/

/-- Modelled from the spec: a salted one-way password digest
(`security.get_password_hash`).  The salt makes equal plaintexts hash to
distinct digests; `verify_password` is the only comparison path. -/
structure Digest where
  plain : String
  salt : Nat
deriving DecidableEq

/-- Modelled from the spec: `security.verify_password(plaintext, digest)`. -/
def verify_password (p : String) (d : Digest) : Bool :=
  decide (p = d.plain)

/-! ### Data model (modelled from the spec section 3 and
`Backend/app/schemas/auth.py`; `app/models/user.py` is missing from the
source tree) -/

/-- A `users` row. -/
structure User where
  id : Nat
  username : String
  email : String
  hashed_password : Digest
  is_active : Bool
  is_verified : Bool
  created_at : Nat
  last_login : Option Nat
deriving DecidableEq

/-- A `user_sessions` row.  Session tokens (uuid4 strings in the source)
are drawn from the freshness counter, hence `Nat`. -/
structure UserSession where
  user_id : Nat
  session_token : Nat
  refresh_token : Tok
  expires_at : Nat
  ip_address : Option String
  user_agent : Option String
  created_at : Nat
  last_activity : Nat
  is_active : Bool
deriving DecidableEq

/-- One Redis entry written by `SETEX session:<token> ttl username`. -/
structure CacheEntry where
  key : Nat
  value : String
  ttl : Nat
deriving DecidableEq

/-- The whole mutable world: durable store (users, sessions), Redis cache,
and the freshness counter feeding uuid4/JWT-issue randomness. -/
structure St where
  users : List User
  sessions : List UserSession
  cache : List CacheEntry
  ctr : Nat
deriving DecidableEq

/-- `SETEX key ttl value`: overwrites any previous entry under the key. -/
def cacheSetex (c : List CacheEntry) (k ttl : Nat) (v : String) : List CacheEntry :=
  (c.filter (fun e => !decide (e.key = k))) ++ [{ key := k, value := v, ttl := ttl }]

/-- `GET key`. -/
def cacheGet (c : List CacheEntry) (k : Nat) : Option String :=
  (c.find? (fun e => decide (e.key = k))).map (fun e => e.value)

/-- The full entry under a key, TTL included. -/
def cacheEntry (c : List CacheEntry) (k : Nat) : Option CacheEntry :=
  c.find? (fun e => decide (e.key = k))

/-- `DEL key`. -/
def cacheDel (c : List CacheEntry) (k : Nat) : List CacheEntry :=
  c.filter (fun e => !decide (e.key = k))

/-! ### Errors and SQLAlchemy result shapes -/

/-- Failures escaping an `AuthService` coroutine: an `HTTPException`
(status, detail), SQLAlchemy's `MultipleResultsFound`, or an exception
raised by the Redis client (propagated untouched by `auth.py`). -/
inductive AuthErr where
  | http (status : Nat) (detail : String)
  | multipleResults
  | cacheError
deriving DecidableEq

/-- `Result.scalar_one_or_none()`: `none` on zero rows, the row on exactly
one, `MultipleResultsFound` otherwise. -/
def scalar_one_or_none {α : Type} : List α → Except AuthErr (Option α)
  | [] => .ok none
  | [a] => .ok (some a)
  | _ :: _ :: _ => .error .multipleResults

/-- The `Token` response schema (`Backend/app/schemas/auth.py`). -/
structure Token where
  access_token : Tok
  refresh_token : Tok
  token_type : String := "bearer"
  expires_in : Nat
deriving DecidableEq

/-! ### Row enumeration (ORM object identity)

SQLAlchemy updates mutate the fetched row objects; positions in the
`sessions` list play the role of object identity, so queries that feed
updates return `(index, row)` pairs. -/

/-- Pair every element with its position, starting at `n`. -/
def withIdx {α : Type} : Nat → List α → List (Nat × α)
  | _, [] => []
  | n, a :: l => (n, a) :: withIdx (n + 1) l

/-! ### `AuthService` (`Backend/app/services/auth.py`) -/

namespace AuthService

/-- Row predicate of the eviction query in `create_user_session`:
`UserSession.user_id == user.id, UserSession.is_active == True`. -/
def activeOfUser (uid : Nat) (s : UserSession) : Bool :=
  decide (s.user_id = uid) && s.is_active

/-- Insert into a list already sorted by `created_at` descending (stable:
an equal key goes after the existing ones), mirroring
`ORDER BY created_at DESC`. -/
def insertByCreatedDesc (p : Nat × UserSession) :
    List (Nat × UserSession) → List (Nat × UserSession)
  | [] => [p]
  | q :: qs =>
    if q.2.created_at < p.2.created_at then p :: q :: qs
    else q :: insertByCreatedDesc p qs

/-- Sort `(index, row)` pairs by `created_at` descending. -/
def sortByCreatedDesc : List (Nat × UserSession) → List (Nat × UserSession)
  | [] => []
  | p :: ps => insertByCreatedDesc p (sortByCreatedDesc ps)

/-- The `active=true` sessions of a user, newest first, with their row
identities (step 1 of `create_user_session`). -/
def activeOrdered (st : St) (uid : Nat) : List (Nat × UserSession) :=
  sortByCreatedDesc ((withIdx 0 st.sessions).filter (fun p => activeOfUser uid p.2))

/-- Row identities deactivated by the cap check (the slice
`active_sessions[MAX_SESSIONS_PER_USER-1:]`, taken only when
`len(active_sessions) >= MAX_SESSIONS_PER_USER`). -/
def evictedIdx (st : St) (uid : Nat) : List Nat :=
  if MAX_SESSIONS_PER_USER ≤ (activeOrdered st uid).length then
    ((activeOrdered st uid).drop (MAX_SESSIONS_PER_USER - 1)).map (fun p => p.1)
  else []

/-- The mutation `session.is_active = False` applied to the fetched rows
whose identities lie in `evicted`. -/
def applyEviction (evicted : List Nat) (p : Nat × UserSession) : UserSession :=
  if evicted.contains p.1 then { p.2 with is_active := false } else p.2

/-- `AuthService.create_user_session`.  `cacheOk` models whether the Redis
`SETEX` after the database commit succeeds; on `false` the Redis exception
propagates out of the service, the committed row staying behind. -/
def create_user_session (st : St) (user : User) (ip ua : Option String)
    (remember_me : Bool) (now : Nat) (cacheOk : Bool) :
    Except AuthErr Token × St :=
  let evicted := evictedIdx st user.id
  let sessions1 := (withIdx 0 st.sessions).map (applyEviction evicted)
  let delta := if remember_me then REFRESH_TOKEN_EXPIRE_DAYS * 86400
    else ACCESS_TOKEN_EXPIRE_MINUTES * 60
  let access := create_access_token user.username user.id delta now st.ctr
  let refresh := create_refresh_token user.username user.id now (st.ctr + 1)
  let session_token := st.ctr + 2
  let expires_at := now + delta
  let row : UserSession :=
    { user_id := user.id, session_token := session_token, refresh_token := refresh,
      expires_at := expires_at, ip_address := ip, user_agent := ua,
      created_at := now, last_activity := now, is_active := true }
  let committed : St := { st with sessions := sessions1 ++ [row], ctr := st.ctr + 3 }
  if cacheOk then
    (.ok { access_token := access, refresh_token := refresh, expires_in := delta },
     { committed with cache := cacheSetex st.cache session_token delta user.username })
  else
    (.error .cacheError, committed)

/-- `AuthService.authenticate_user`. -/
def authenticate_user (st : St) (username password : String) (now : Nat) :
    Except AuthErr (Option User) × St :=
  match scalar_one_or_none (st.users.filter (fun u => decide (u.username = username))) with
  | .error e => (.error e, st)
  | .ok none => (.ok none, st)
  | .ok (some user) =>
    if !verify_password password user.hashed_password then (.ok none, st)
    else if !user.is_active then (.error (.http 400 "Inactive user account"), st)
    else
      let users1 := st.users.map
        (fun u => if decide (u.id = user.id) then { u with last_login := some now } else u)
      (.ok (some user), { st with users := users1 })

/-- `AuthService.refresh_token`. -/
def refresh_token (st : St) (tok : Tok) (now : Nat) : Except AuthErr Token × St :=
  if !verify_token tok .refresh now then
    (.error (.http 401 "Invalid refresh token"), st)
  else
    match scalar_one_or_none ((withIdx 0 st.sessions).filter
        (fun p => decide (p.2.refresh_token = tok) && p.2.is_active)) with
    | .error e => (.error e, st)
    | .ok none => (.error (.http 401 "Invalid refresh token"), st)
    | .ok (some js) =>
      match scalar_one_or_none (st.users.filter (fun u => decide (u.id = js.2.user_id))) with
      | .error e => (.error e, st)
      | .ok none => (.error (.http 401 "User not found or inactive"), st)
      | .ok (some user) =>
        if !user.is_active then (.error (.http 401 "User not found or inactive"), st)
        else
          let new_access := create_access_token user.username user.id
            (ACCESS_TOKEN_EXPIRE_MINUTES * 60) now st.ctr
          let new_refresh := create_refresh_token user.username user.id now (st.ctr + 1)
          let sessions1 := st.sessions.set js.1
            { js.2 with refresh_token := new_refresh, last_activity := now }
          (.ok { access_token := new_access, refresh_token := new_refresh,
                 expires_in := ACCESS_TOKEN_EXPIRE_MINUTES * 60 },
           { st with sessions := sessions1, ctr := st.ctr + 2 })

/-- The SET clause of `UPDATE user_sessions SET is_active=false WHERE
session_token = tok`, applied row by row. -/
def deactivateIfToken (tok : Nat) (s : UserSession) : UserSession :=
  if decide (s.session_token = tok) then { s with is_active := false } else s

/-- `AuthService.logout_user`. -/
def logout_user (st : St) (session_token : Nat) : Except AuthErr Bool × St :=
  let sessions1 := st.sessions.map (deactivateIfToken session_token)
  (.ok true, { st with sessions := sessions1, cache := cacheDel st.cache session_token })

/-- The SET clause of `UPDATE user_sessions SET is_active=false WHERE
user_id = uid AND is_active=true`, applied row by row. -/
def deactivateIfActiveOfUser (uid : Nat) (s : UserSession) : UserSession :=
  if activeOfUser uid s then { s with is_active := false } else s

/-- `AuthService.logout_all_sessions`. -/
def logout_all_sessions (st : St) (uid : Nat) : Except AuthErr Bool × St :=
  let actives := st.sessions.filter (activeOfUser uid)
  let sessions1 := st.sessions.map (deactivateIfActiveOfUser uid)
  let cache1 := actives.foldl (fun c s => cacheDel c s.session_token) st.cache
  (.ok true, { st with sessions := sessions1, cache := cache1 })

/-- The SET clause of `UPDATE user_sessions SET last_activity=now WHERE
session_token = tok`, applied row by row. -/
def touchIfToken (tok now : Nat) (s : UserSession) : UserSession :=
  if decide (s.session_token = tok) then { s with last_activity := now } else s

/-- `AuthService.verify_session`. -/
def verify_session (st : St) (session_token : Nat) (now : Nat) :
    Except AuthErr (Option User) × St :=
  match cacheGet st.cache session_token with
  | none => (.ok none, st)
  | some username =>
    match scalar_one_or_none (st.users.filter (fun u => decide (u.username = username))) with
    | .error e => (.error e, st)
    | .ok none => (.ok none, st)
    | .ok (some user) =>
      if !user.is_active then (.ok none, st)
      else
        let sessions1 := st.sessions.map (touchIfToken session_token now)
        (.ok (some user), { st with sessions := sessions1 })

end AuthService

/-- The `/auth/login` route (`Backend/app/api/routes/auth.py`):
authenticate, then a `none` result becomes 401 `Invalid username or
password`, otherwise a session is created. -/
def login (st : St) (username password : String) (ip ua : Option String)
    (remember_me : Bool) (now : Nat) (cacheOk : Bool) : Except AuthErr Token × St :=
  match AuthService.authenticate_user st username password now with
  | (.error e, st1) => (.error e, st1)
  | (.ok none, st1) => (.error (.http 401 "Invalid username or password"), st1)
  | (.ok (some user), st1) =>
    AuthService.create_user_session st1 user ip ua remember_me now cacheOk

/-- One Session Manager call with its request-supplied arguments, for
reachability over operation sequences. -/
inductive Op where
  | createSession (user : User) (ip ua : Option String) (rm : Bool) (now : Nat) (cacheOk : Bool)
  | refresh (tok : Tok) (now : Nat)
  | logout (session_token : Nat)
  | logoutAll (uid : Nat)
  | verify (session_token : Nat) (now : Nat)
  | authenticate (username password : String) (now : Nat)

/-- Run one operation, keeping the committed post-state whether the call
returned or raised. -/
def runOp (st : St) : Op → St
  | .createSession user ip ua rm now cacheOk =>
    (AuthService.create_user_session st user ip ua rm now cacheOk).2
  | .refresh tok now => (AuthService.refresh_token st tok now).2
  | .logout tok => (AuthService.logout_user st tok).2
  | .logoutAll uid => (AuthService.logout_all_sessions st uid).2
  | .verify tok now => (AuthService.verify_session st tok now).2
  | .authenticate u p now => (AuthService.authenticate_user st u p now).2

/-- Active sessions a user holds in a state. -/
def countActive (st : St) (uid : Nat) : Nat :=
  (st.sessions.filter (AuthService.activeOfUser uid)).length

/-! ### Concrete sample data for witnesses -/

/-- A registered, active user. -/
def wUser : User :=
  { id := 1, username := "alice", email := "alice@example.com",
    hashed_password := { plain := "Passw0rd", salt := 7 },
    is_active := true, is_verified := true, created_at := 0, last_login := none }

/-- The i-th login session of `wUser`, created at time `i`. -/
def wSess (i : Nat) : UserSession :=
  { user_id := 1, session_token := 100 + i,
    refresh_token := create_refresh_token "alice" 1 i (10 + i),
    expires_at := i + 604800, ip_address := none, user_agent := none,
    created_at := i, last_activity := i, is_active := true }

/-- A state where `wUser` holds five active sessions (the cap) and the
cache mirrors session 100. -/
def wSt : St :=
  { users := [wUser], sessions := [wSess 0, wSess 1, wSess 2, wSess 3, wSess 4],
    cache := [{ key := 100, value := "alice", ttl := 1800 }], ctr := 50 }

/-- A state holding one deactivated session and one active one. -/
def wStMix : St :=
  { users := [wUser], sessions := [{ wSess 0 with is_active := false }, wSess 1],
    cache := [], ctr := 50 }

/-! ### Helper lemmas: row enumeration -/

theorem withIdx_length {α : Type} (n : Nat) (l : List α) :
    (withIdx n l).length = l.length := by
  induction l generalizing n with
  | nil => rfl
  | cons a l ih => simp [withIdx, ih]

theorem withIdx_map_snd {α : Type} (n : Nat) (l : List α) :
    (withIdx n l).map Prod.snd = l := by
  induction l generalizing n with
  | nil => rfl
  | cons a l ih => simp [withIdx, ih]

theorem mem_withIdx {α : Type} {n : Nat} {l : List α} {p : Nat × α}
    (h : p ∈ withIdx n l) : ∃ k, p.1 = n + k ∧ l[k]? = some p.2 := by
  induction l generalizing n with
  | nil => simp [withIdx] at h
  | cons a l ih =>
    simp only [withIdx, List.mem_cons] at h
    rcases h with h | h
    · exact ⟨0, by simp [h]⟩
    · obtain ⟨k, hk1, hk2⟩ := ih h
      exact ⟨k + 1, by omega, by simpa using hk2⟩

theorem snd_mem_of_mem_withIdx {α : Type} {n : Nat} {l : List α} {p : Nat × α}
    (h : p ∈ withIdx n l) : p.2 ∈ l := by
  obtain ⟨k, _, hk⟩ := mem_withIdx h
  exact List.mem_iff_getElem?.mpr ⟨k, hk⟩

theorem fst_le_of_mem_withIdx {α : Type} {n : Nat} {l : List α} {p : Nat × α}
    (h : p ∈ withIdx n l) : n ≤ p.1 := by
  obtain ⟨k, hk, _⟩ := mem_withIdx h
  omega

theorem getElem?_mem_withIdx {α : Type} {l : List α} {j : Nat} {s : α}
    (h : (j, s) ∈ withIdx 0 l) : l[j]? = some s := by
  obtain ⟨k, hk1, hk2⟩ := mem_withIdx h
  simp only at hk1 hk2
  have hkj : j = k := by omega
  exact hkj ▸ hk2

theorem withIdx_nodup_fst {α : Type} (n : Nat) (l : List α) :
    ((withIdx n l).map Prod.fst).Nodup := by
  induction l generalizing n with
  | nil => simp [withIdx]
  | cons a l ih =>
    simp only [withIdx, List.map_cons, List.nodup_cons]
    refine ⟨fun hmem => ?_, ih (n + 1)⟩
    obtain ⟨p, hp, hfst⟩ := List.mem_map.mp hmem
    have := fst_le_of_mem_withIdx hp
    omega

theorem withIdx_nodup {α : Type} (n : Nat) (l : List α) : (withIdx n l).Nodup :=
  (withIdx_nodup_fst n l).of_map Prod.fst

theorem withIdx_getElem? {α : Type} (n : Nat) (l : List α) (i : Nat) :
    (withIdx n l)[i]? = l[i]?.map (fun a => (n + i, a)) := by
  induction l generalizing n i with
  | nil => simp [withIdx]
  | cons a l ih =>
    cases i with
    | zero => simp [withIdx]
    | succ i => simp [withIdx, ih (n + 1) i, Nat.add_assoc, Nat.add_comm 1 i]

theorem withIdx_set {α : Type} (n j : Nat) (a : α) (l : List α) :
    withIdx n (l.set j a) =
      (withIdx n l).map (fun p => if p.1 = n + j then (n + j, a) else p) := by
  induction l generalizing n j with
  | nil => simp [withIdx]
  | cons b l ih =>
    cases j with
    | zero =>
      simp only [List.set, withIdx, Nat.add_zero, List.map_cons, if_pos rfl]
      refine congrArg _ ?_
      refine ((List.map_congr_left ?_).trans (List.map_id _)).symm
      intro p hp
      have := fst_le_of_mem_withIdx hp
      simp only [id]
      rw [if_neg (by omega)]
    | succ j =>
      simp only [List.set, withIdx, List.map_cons]
      rw [if_neg (by omega), ih (n + 1) j]
      refine congrArg _ (List.map_congr_left fun p hp => ?_)
      have h1 : n + 1 + j = n + (j + 1) := by omega
      rw [h1]

theorem filter_withIdx_map_snd {α : Type} (q : α → Bool) (n : Nat) (l : List α) :
    ((withIdx n l).filter (fun p => q p.2)).map Prod.snd = l.filter q := by
  induction l generalizing n with
  | nil => rfl
  | cons a l ih =>
    by_cases h : q a
    · simp [withIdx, List.filter_cons, h, ih]
    · simp [withIdx, List.filter_cons, h, ih]

/-! ### Helper lemmas: ordering, queries, cache -/

theorem insertByCreatedDesc_perm (p : Nat × UserSession)
    (l : List (Nat × UserSession)) :
    List.Perm (AuthService.insertByCreatedDesc p l) (p :: l) := by
  induction l with
  | nil => exact List.Perm.refl _
  | cons q qs ih =>
    simp only [AuthService.insertByCreatedDesc]
    split
    · exact List.Perm.refl _
    · exact (List.Perm.cons q ih).trans (List.Perm.swap p q qs)

theorem sortByCreatedDesc_perm (l : List (Nat × UserSession)) :
    List.Perm (AuthService.sortByCreatedDesc l) l := by
  induction l with
  | nil => exact List.Perm.refl _
  | cons p ps ih =>
    exact (insertByCreatedDesc_perm p _).trans (List.Perm.cons p ih)

theorem scalar_ok_none_iff {α : Type} {l : List α} :
    scalar_one_or_none l = .ok none ↔ l = [] := by
  match l with
  | [] => simp [scalar_one_or_none]
  | [a] => simp [scalar_one_or_none]
  | a :: b :: l => simp [scalar_one_or_none]

theorem scalar_ok_some_iff {α : Type} {l : List α} {a : α} :
    scalar_one_or_none l = .ok (some a) ↔ l = [a] := by
  match l with
  | [] => simp [scalar_one_or_none]
  | [b] => simp [scalar_one_or_none]
  | b :: c :: l => simp [scalar_one_or_none]

theorem filter_eq_singleton {α : Type} {xs : List α} {q : α → Bool} {x : α}
    (hnd : xs.Nodup) (hx : x ∈ xs) (hq : q x = true)
    (huniq : ∀ y ∈ xs, q y = true → y = x) : xs.filter q = [x] := by
  induction xs with
  | nil => simp at hx
  | cons a l ih =>
    rcases List.nodup_cons.mp hnd with ⟨hal, hl⟩
    rcases List.mem_cons.mp hx with rfl | hxl
    · rw [List.filter_cons_of_pos hq]
      refine congrArg _ (List.filter_eq_nil_iff.mpr fun y hy hqy => ?_)
      exact hal ((huniq y (List.mem_cons_of_mem _ hy) hqy) ▸ hy)
    · rw [List.filter_cons_of_neg, ih hl hxl (fun y hy hqy => huniq y (List.mem_cons_of_mem _ hy) hqy)]
      intro hqa
      exact hal ((huniq a (List.mem_cons_self a l) hqa) ▸ hxl)

theorem cacheGet_del (c : List CacheEntry) (k : Nat) :
    cacheGet (cacheDel c k) k = none := by
  simp only [cacheGet, cacheDel]
  rw [List.find?_eq_none.mpr]
  · rfl
  · intro e he
    have := List.of_mem_filter he
    simp_all

theorem cacheDel_del (c : List CacheEntry) (k : Nat) :
    cacheDel (cacheDel c k) k = cacheDel c k := by
  simp only [cacheDel, List.filter_filter]
  exact List.filter_congr fun e _ => by cases h : decide (e.key = k) <;> simp [h]

theorem cacheEntry_setex (c : List CacheEntry) (k ttl : Nat) (v : String) :
    cacheEntry (cacheSetex c k ttl v) k = some { key := k, value := v, ttl := ttl } := by
  simp only [cacheEntry, cacheSetex, List.find?_append]
  rw [List.find?_eq_none.mpr, Option.none_or]
  · simp
  · intro e he
    have := List.of_mem_filter he
    simp_all

theorem deactivateIfToken_idem (tok : Nat) (s : UserSession) :
    AuthService.deactivateIfToken tok (AuthService.deactivateIfToken tok s) =
      AuthService.deactivateIfToken tok s := by
  by_cases h : s.session_token = tok
  · simp [AuthService.deactivateIfToken, h]
  · simp [AuthService.deactivateIfToken, h]

/-! ### Claim theorems -/

/-- C7: the session lifetime is `REFRESH_TOKEN_EXPIRE_DAYS` days when
`remember_me` is set and `ACCESS_TOKEN_EXPIRE_MINUTES` minutes otherwise;
the persisted row's `expires_at` is `now + lifetime`, the cache entry for
the new session token carries a TTL equal to the lifetime in seconds, and
the returned `expires_in` equals the same lifetime in seconds. -/
theorem create_user_session_lifetime (st : St) (user : User) (ip ua : Option String)
    (rm : Bool) (now : Nat) :
    (AuthService.create_user_session st user ip ua rm now true).1 =
      .ok { access_token := create_access_token user.username user.id
              (if rm then REFRESH_TOKEN_EXPIRE_DAYS * 86400
               else ACCESS_TOKEN_EXPIRE_MINUTES * 60) now st.ctr,
            refresh_token := create_refresh_token user.username user.id now (st.ctr + 1),
            expires_in := if rm then REFRESH_TOKEN_EXPIRE_DAYS * 86400
              else ACCESS_TOKEN_EXPIRE_MINUTES * 60 }
    ∧ ∃ row : UserSession,
        (AuthService.create_user_session st user ip ua rm now true).2.sessions.getLast? =
          some row
        ∧ row.expires_at = now + (if rm then REFRESH_TOKEN_EXPIRE_DAYS * 86400
            else ACCESS_TOKEN_EXPIRE_MINUTES * 60)
        ∧ cacheEntry (AuthService.create_user_session st user ip ua rm now true).2.cache
            row.session_token =
          some { key := row.session_token, value := user.username,
                 ttl := if rm then REFRESH_TOKEN_EXPIRE_DAYS * 86400
                   else ACCESS_TOKEN_EXPIRE_MINUTES * 60 } := by
  refine ⟨rfl,
    ⟨{ user_id := user.id, session_token := st.ctr + 2,
       refresh_token := create_refresh_token user.username user.id now (st.ctr + 1),
       expires_at := now + (if rm then REFRESH_TOKEN_EXPIRE_DAYS * 86400
         else ACCESS_TOKEN_EXPIRE_MINUTES * 60),
       ip_address := ip, user_agent := ua, created_at := now, last_activity := now,
       is_active := true }, ?_, rfl, ?_⟩⟩
  · exact List.getLast?_concat _
  · exact cacheEntry_setex st.cache (st.ctr + 2)
      (if rm then REFRESH_TOKEN_EXPIRE_DAYS * 86400 else ACCESS_TOKEN_EXPIRE_MINUTES * 60)
      user.username

/-- C8: `logout_user` always succeeds with `true`; afterwards every
session row carrying the given token is inactive and the cache entry for
it is gone; a second identical call succeeds again and changes nothing. -/
theorem logout_user_total_idempotent (st : St) (tok : Nat) :
    (AuthService.logout_user st tok).1 = .ok true
    ∧ (∀ s ∈ (AuthService.logout_user st tok).2.sessions,
        s.session_token = tok → s.is_active = false)
    ∧ cacheGet (AuthService.logout_user st tok).2.cache tok = none
    ∧ AuthService.logout_user (AuthService.logout_user st tok).2 tok =
        (.ok true, (AuthService.logout_user st tok).2) := by
  refine ⟨rfl, ?_, cacheGet_del st.cache tok, ?_⟩
  · intro s hs htok
    obtain ⟨s0, hs0, rfl⟩ := List.mem_map.mp hs
    by_cases h : s0.session_token = tok
    · simp [AuthService.deactivateIfToken, h]
    · simp only [AuthService.deactivateIfToken, h] at htok
      simp at htok
      exact absurd htok h
  · have h1 : (st.sessions.map (AuthService.deactivateIfToken tok)).map
        (AuthService.deactivateIfToken tok) =
        st.sessions.map (AuthService.deactivateIfToken tok) := by
      rw [List.map_map]
      exact List.map_congr_left fun s _ => deactivateIfToken_idem tok s
    simp only [AuthService.logout_user, Prod.mk.injEq, St.mk.injEq]
    simp [h1, cacheDel_del st.cache tok]

/-- C8 witness: a concrete double logout. -/
theorem logout_user_total_idempotent_witness :
    (AuthService.logout_user wSt 100).1 = .ok true
    ∧ cacheGet (AuthService.logout_user wSt 100).2.cache 100 = none
    ∧ AuthService.logout_user (AuthService.logout_user wSt 100).2 100 =
        (.ok true, (AuthService.logout_user wSt 100).2) :=
  ⟨(logout_user_total_idempotent wSt 100).1,
   (logout_user_total_idempotent wSt 100).2.2.1,
   (logout_user_total_idempotent wSt 100).2.2.2⟩

/-- C10: `verify_session` yields no identity on a cache miss, and also
when the cached username matches no user row or an inactive user — in all
three cases leaving the state untouched; only a cache hit resolving to an
existing active user returns that user, and only then is `last_activity`
touched on the rows holding the session token. -/
theorem verify_session_spec (st : St) (tok now : Nat) :
    (cacheGet st.cache tok = none →
      AuthService.verify_session st tok now = (.ok none, st))
    ∧ (∀ uname, cacheGet st.cache tok = some uname →
        st.users.filter (fun x => decide (x.username = uname)) = [] →
        AuthService.verify_session st tok now = (.ok none, st))
    ∧ (∀ uname u, cacheGet st.cache tok = some uname →
        st.users.filter (fun x => decide (x.username = uname)) = [u] →
        u.is_active = false →
        AuthService.verify_session st tok now = (.ok none, st))
    ∧ (∀ uname u, cacheGet st.cache tok = some uname →
        st.users.filter (fun x => decide (x.username = uname)) = [u] →
        u.is_active = true →
        AuthService.verify_session st tok now =
          (.ok (some u),
           { st with sessions := st.sessions.map (AuthService.touchIfToken tok now) })) := by
  refine ⟨?_, ?_, ?_, ?_⟩
  · intro h
    simp [AuthService.verify_session, h]
  · intro uname h hf
    simp [AuthService.verify_session, h, hf, scalar_one_or_none]
  · intro uname u h hf hina
    simp [AuthService.verify_session, h, hf, scalar_one_or_none, hina]
  · intro uname u h hf hact
    simp [AuthService.verify_session, h, hf, scalar_one_or_none, hact]

/-- C10 witness: a cache hit for session 100 resolves to the active user
`alice` and touches that session's `last_activity`. -/
theorem verify_session_spec_witness :
    cacheGet wSt.cache 100 = some "alice"
    ∧ wSt.users.filter (fun x => decide (x.username = "alice")) = [wUser]
    ∧ wUser.is_active = true
    ∧ AuthService.verify_session wSt 100 9999 =
        (.ok (some wUser),
         { wSt with sessions := wSt.sessions.map (AuthService.touchIfToken 100 9999) }) :=
  ⟨rfl, rfl, rfl,
   (verify_session_spec wSt 100 9999).2.2.2 "alice" wUser rfl rfl rfl⟩

/-- C9: a login with an unknown username and a login with a known username
but wrong password produce the same observable outcome: the same 401
`Invalid username or password` failure and an unchanged state, so the
caller cannot tell which of username or password was wrong. -/
theorem login_uniform_failure (st : St) (now : Nat) (n1 p1 n2 p2 : String) (u : User)
    (ip ua : Option String) (rm cacheOk : Bool)
    (h1 : st.users.filter (fun x => decide (x.username = n1)) = [])
    (h2 : st.users.filter (fun x => decide (x.username = n2)) = [u])
    (h3 : verify_password p2 u.hashed_password = false) :
    login st n1 p1 ip ua rm now cacheOk =
      (.error (.http 401 "Invalid username or password"), st)
    ∧ login st n2 p2 ip ua rm now cacheOk =
      (.error (.http 401 "Invalid username or password"), st) := by
  constructor
  · simp [login, AuthService.authenticate_user, h1, scalar_one_or_none]
  · simp [login, AuthService.authenticate_user, h2, scalar_one_or_none, h3]

/-- C9 witness: unknown user `mallory` and wrong password for `alice`
yield the identical failure. -/
theorem login_uniform_failure_witness :
    wSt.users.filter (fun x => decide (x.username = "mallory")) = []
    ∧ wSt.users.filter (fun x => decide (x.username = "alice")) = [wUser]
    ∧ verify_password "wrong" wUser.hashed_password = false
    ∧ login wSt "mallory" "whatever" none none false 5 true =
        (.error (.http 401 "Invalid username or password"), wSt)
    ∧ login wSt "alice" "wrong" none none false 5 true =
        (.error (.http 401 "Invalid username or password"), wSt) :=
  ⟨rfl, rfl, rfl,
   (login_uniform_failure wSt 5 "mallory" "whatever" "alice" "wrong" wUser
     none none false true rfl rfl rfl).1,
   (login_uniform_failure wSt 5 "mallory" "whatever" "alice" "wrong" wUser
     none none false true rfl rfl rfl).2⟩

/-- C3: what the code actually does when the Redis `SETEX` after the
database commit fails: the whole call fails (the caller gets no token
pair), while the committed session row stays behind, active, and the cache
is untouched.  This contradicts the claim that the cache-write failure is
tolerated. -/
theorem create_user_session_cache_failure (st : St) (user : User)
    (ip ua : Option String) (rm : Bool) (now : Nat) :
    (AuthService.create_user_session st user ip ua rm now false).1 = .error .cacheError
    ∧ (∃ row : UserSession,
        (AuthService.create_user_session st user ip ua rm now false).2.sessions.getLast? =
          some row
        ∧ row.is_active = true ∧ row.user_id = user.id)
    ∧ (AuthService.create_user_session st user ip ua rm now false).2.cache = st.cache := by
  exact ⟨rfl, ⟨_, List.getLast?_concat _, rfl, rfl⟩, rfl⟩

/-- C6: a successful refresh mutates only the matched session row, and in
it only `refresh_token` (to the returned value) and `last_activity`; the
users, the other session rows and the whole cache (entries and TTLs) are
untouched. -/
theorem refresh_token_frame (st : St) (tok : Tok) (now : Nat) (T : Token) (st1 : St)
    (h : AuthService.refresh_token st tok now = (.ok T, st1)) :
    st1.users = st.users
    ∧ st1.cache = st.cache
    ∧ ∃ j S, st.sessions[j]? = some S
        ∧ st1.sessions = st.sessions.set j
            { S with refresh_token := T.refresh_token, last_activity := now }
        ∧ ∀ k, k ≠ j → st1.sessions[k]? = st.sessions[k]? := by
  simp only [AuthService.refresh_token] at h
  split at h
  · simp [Prod.ext_iff] at h
  · split at h
    · simp [Prod.ext_iff] at h
    · simp [Prod.ext_iff] at h
    · next js hjs =>
      split at h
      · simp [Prod.ext_iff] at h
      · simp [Prod.ext_iff] at h
      · next user huser =>
        split at h
        · simp [Prod.ext_iff] at h
        · have hT := congrArg Prod.fst h
          have hSt := congrArg Prod.snd h
          simp only at hT hSt
          have hT2 := Except.ok.inj hT
          have hmem : (js.1, js.2) ∈ withIdx 0 st.sessions := by
            rw [Prod.mk.eta]
            exact List.mem_of_mem_filter
              (scalar_ok_some_iff.mp hjs ▸ List.mem_singleton.mpr rfl)
          refine ⟨by rw [← hSt], by rw [← hSt], js.1, js.2, getElem?_mem_withIdx hmem,
            ?_, ?_⟩
          · rw [← hSt, ← hT2]
          · intro k hk
            rw [← hSt]
            exact List.getElem?_set_ne (fun he => hk he.symm)

/-- C6 witness: a concrete successful refresh of session 100's token. -/
theorem refresh_token_frame_witness :
    (AuthService.refresh_token wSt (wSess 0).refresh_token 1000).2.users = wSt.users
    ∧ (AuthService.refresh_token wSt (wSess 0).refresh_token 1000).2.cache = wSt.cache
    ∧ ∃ j S, wSt.sessions[j]? = some S
        ∧ (AuthService.refresh_token wSt (wSess 0).refresh_token 1000).2.sessions =
            wSt.sessions.set j
              { S with refresh_token := create_refresh_token "alice" 1 1000 51,
                       last_activity := 1000 }
        ∧ ∀ k, k ≠ j →
            (AuthService.refresh_token wSt (wSess 0).refresh_token 1000).2.sessions[k]? =
              wSt.sessions[k]? :=
  refresh_token_frame wSt (wSess 0).refresh_token 1000
    { access_token := create_access_token "alice" 1 1800 1000 50,
      refresh_token := create_refresh_token "alice" 1 1000 51, expires_in := 1800 }
    (AuthService.refresh_token wSt (wSess 0).refresh_token 1000).2 rfl

/-- C4: `refresh_token` fails with a 401 error exactly when, in this
order, the codec rejects the token, or no active session stores exactly
that refresh token, or the uniquely matched session's owner is missing or
inactive; and every failure leaves the state untouched.  (The hypothesis
is the store's primary-key invariant: user ids are unique.) -/
theorem refresh_token_error_spec (st : St) (tok : Tok) (now : Nat)
    (hids : (st.users.map (fun x => x.id)).Nodup) :
    ((∃ d, (AuthService.refresh_token st tok now).1 = .error (.http 401 d)) ↔
      (verify_token tok .refresh now = false
        ∨ (verify_token tok .refresh now = true
            ∧ st.sessions.filter
                (fun s => decide (s.refresh_token = tok) && s.is_active) = [])
        ∨ (verify_token tok .refresh now = true
            ∧ ∃ j S, (withIdx 0 st.sessions).filter
                  (fun p => decide (p.2.refresh_token = tok) && p.2.is_active) = [(j, S)]
                ∧ ∀ u ∈ st.users, u.id = S.user_id → u.is_active = false)))
    ∧ (∀ e, (AuthService.refresh_token st tok now).1 = .error e →
        (AuthService.refresh_token st tok now).2 = st) := by
  have hsnd := filter_withIdx_map_snd
    (fun s => decide (s.refresh_token = tok) && s.is_active) 0 st.sessions
  cases hv : verify_token tok .refresh now with
  | false =>
    refine ⟨⟨fun _ => Or.inl rfl, fun _ => ⟨"Invalid refresh token", ?_⟩⟩, fun e he => ?_⟩
    · simp [AuthService.refresh_token, hv]
    · simp [AuthService.refresh_token, hv]
  | true =>
    cases hW : (withIdx 0 st.sessions).filter
        (fun p => decide (p.2.refresh_token = tok) && p.2.is_active) with
    | nil =>
      rw [hW] at hsnd
      refine ⟨⟨fun _ => Or.inr (Or.inl ⟨rfl, hsnd.symm.trans rfl⟩),
        fun _ => ⟨"Invalid refresh token", ?_⟩⟩, fun e he => ?_⟩
      · simp [AuthService.refresh_token, hv, hW, scalar_one_or_none]
      · simp [AuthService.refresh_token, hv, hW, scalar_one_or_none]
    | cons a l =>
      obtain ⟨j0, S0⟩ := a
      cases l with
      | nil =>
        rw [hW] at hsnd
        cases hU : st.users.filter (fun x => decide (x.id = S0.user_id)) with
        | nil =>
          refine ⟨⟨fun _ => Or.inr (Or.inr ⟨rfl, j0, S0, rfl, fun u hu hid => ?_⟩),
            fun _ => ⟨"User not found or inactive", ?_⟩⟩, fun e he => ?_⟩
          · exact absurd (hU ▸ List.mem_filter.mpr ⟨hu, by simp [hid]⟩)
              (List.not_mem_nil u)
          · simp [AuthService.refresh_token, hv, hW, hU, scalar_one_or_none]
          · simp [AuthService.refresh_token, hv, hW, hU, scalar_one_or_none]
        | cons u us =>
          cases us with
          | nil =>
            have humem : u ∈ st.users := List.mem_of_mem_filter
              (hU ▸ List.mem_cons_self u [])
            have hup : u.id = S0.user_id := by
              have := List.of_mem_filter (hU ▸ List.mem_cons_self u ([] : List User))
              simpa using this
            cases hA : u.is_active with
            | false =>
              refine ⟨⟨fun _ => Or.inr (Or.inr ⟨rfl, j0, S0, rfl, fun x hx hid => ?_⟩),
                fun _ => ⟨"User not found or inactive", ?_⟩⟩, fun e he => ?_⟩
              · have hxmem : x ∈ st.users.filter (fun y => decide (y.id = S0.user_id)) :=
                  List.mem_filter.mpr ⟨hx, by simp [hid]⟩
                rw [hU] at hxmem
                have hxu : x = u := by simpa using hxmem
                rw [hxu]
                exact hA
              · simp [AuthService.refresh_token, hv, hW, hU, scalar_one_or_none, hA]
              · simp [AuthService.refresh_token, hv, hW, hU, scalar_one_or_none, hA]
            | true =>
              refine ⟨⟨fun hex => ?_, fun hrhs => ?_⟩, fun e he => ?_⟩
              · obtain ⟨d, hd⟩ := hex
                simp [AuthService.refresh_token, hv, hW, hU, scalar_one_or_none, hA] at hd
              · exfalso
                rcases hrhs with h1 | ⟨_, h2⟩ | ⟨_, j, S, hJS, hall⟩
                · simp [hv] at h1
                · rw [h2] at hsnd
                  simp at hsnd
                · have hJS2 : j0 = j ∧ S0 = S := by simpa using hJS
                  have hSa : S0 = S := hJS2.2
                  exact absurd (hall u humem (hSa ▸ hup)) (by simp [hA])
              · simp [AuthService.refresh_token, hv, hW, hU, scalar_one_or_none, hA] at he
          | cons u2 us2 =>
            exfalso
            have hu1 : u ∈ st.users.filter (fun x => decide (x.id = S0.user_id)) :=
              hU ▸ List.mem_cons_self _ _
            have hu2 : u2 ∈ st.users.filter (fun x => decide (x.id = S0.user_id)) :=
              hU ▸ List.mem_cons_of_mem _ (List.mem_cons_self _ _)
            have pu1 : u.id = S0.user_id := by simpa using List.of_mem_filter hu1
            have pu2 : u2.id = S0.user_id := by simpa using List.of_mem_filter hu2
            have hnd := List.Nodup.sublist
              (List.Sublist.map (fun x => x.id)
                (@List.filter_sublist User (fun x => decide (x.id = S0.user_id)) st.users))
              hids
            rw [hU] at hnd
            rcases List.nodup_cons.mp hnd with ⟨h1, _⟩
            apply h1
            show u.id ∈ List.map (fun x => x.id) (u2 :: us2)
            rw [List.map_cons]
            exact List.mem_cons.mpr (Or.inl (pu1.trans pu2.symm))
      | cons b l2 =>
        rw [hW] at hsnd
        refine ⟨⟨fun hex => ?_, fun hrhs => ?_⟩, fun e he => ?_⟩
        · obtain ⟨d, hd⟩ := hex
          simp [AuthService.refresh_token, hv, hW, scalar_one_or_none] at hd
        · exfalso
          rcases hrhs with h1 | ⟨_, h2⟩ | ⟨_, j, S, hJS, _⟩
          · simp [hv] at h1
          · rw [h2] at hsnd
            simp at hsnd
          · simp at hJS
        · simp [AuthService.refresh_token, hv, hW, scalar_one_or_none]

/-- C4 witness: an expired refresh token is rejected with a 401 in the
concrete state, user ids being unique there. -/
theorem refresh_token_error_spec_witness :
    (wSt.users.map (fun x => x.id)).Nodup
    ∧ ∃ d, (AuthService.refresh_token wSt
        { sub := "alice", user_id := 1, kind := .refresh, exp := 0, nonce := 0,
          signed := true } 5).1 = .error (.http 401 d) :=
  ⟨by decide,
   (refresh_token_error_spec wSt
     { sub := "alice", user_id := 1, kind := .refresh, exp := 0, nonce := 0,
       signed := true } 5 (by decide)).1.mpr (Or.inl rfl)⟩

/-- C2: for an active session storing a codec-valid refresh token, held by
an existing active user, with the token matching no other active session
and the state counter fresh: the refresh succeeds and rotates the stored
token to a different value, after which the old token no longer matches
any active session and is rejected with a 401, while the newly issued
token refreshes successfully. -/
theorem refresh_rotation (st : St) (j : Nat) (S : UserSession) (u : User) (now : Nat)
    (hS : (withIdx 0 st.sessions).filter
        (fun p => decide (p.2.refresh_token = S.refresh_token) && p.2.is_active) = [(j, S)])
    (hv : verify_token S.refresh_token .refresh now = true)
    (hu : st.users.filter (fun x => decide (x.id = S.user_id)) = [u])
    (hua : u.is_active = true)
    (hn : ∀ s ∈ st.sessions, s.refresh_token.nonce < st.ctr) :
    ∃ T st1, AuthService.refresh_token st S.refresh_token now = (.ok T, st1)
      ∧ T.refresh_token ≠ S.refresh_token
      ∧ st1.sessions[j]? =
          some { S with refresh_token := T.refresh_token, last_activity := now }
      ∧ (AuthService.refresh_token st1 S.refresh_token now).1 =
          .error (.http 401 "Invalid refresh token")
      ∧ st1.sessions.filter
          (fun s => decide (s.refresh_token = S.refresh_token) && s.is_active) = []
      ∧ ∃ T2 st2, AuthService.refresh_token st1 T.refresh_token now = (.ok T2, st2) := by
  have hmemf : (j, S) ∈ (withIdx 0 st.sessions).filter
      (fun p => decide (p.2.refresh_token = S.refresh_token) && p.2.is_active) := by
    rw [hS]
    exact List.mem_cons_self _ _
  have hmemW : (j, S) ∈ withIdx 0 st.sessions := List.mem_of_mem_filter hmemf
  have hjget : st.sessions[j]? = some S := getElem?_mem_withIdx hmemW
  have hSmem : S ∈ st.sessions := snd_mem_of_mem_withIdx hmemW
  have hact : S.is_active = true := by simpa using List.of_mem_filter hmemf
  have hlt : j < st.sessions.length := (List.getElem?_eq_some_iff.mp hjget).1
  have hR1n : S.refresh_token.nonce < st.ctr := hn S hSmem
  have hne : create_refresh_token u.username u.id now (st.ctr + 1) ≠ S.refresh_token := by
    intro heq
    rw [← heq] at hR1n
    simp [create_refresh_token] at hR1n
  have hW1 : (withIdx 0 (st.sessions.set j
      { S with refresh_token := create_refresh_token u.username u.id now (st.ctr + 1), last_activity := now })).filter
      (fun p => decide (p.2.refresh_token = S.refresh_token) && p.2.is_active) = [] := by
    rw [withIdx_set, List.filter_map]
    have hempty : (withIdx 0 st.sessions).filter
        ((fun p => decide (p.2.refresh_token = S.refresh_token) && p.2.is_active) ∘
          (fun p => if p.1 = 0 + j then (0 + j,
            { S with refresh_token := create_refresh_token u.username u.id now (st.ctr + 1), last_activity := now }) else p)) = [] := by
      apply List.filter_eq_nil_iff.mpr
      rintro ⟨q1, q2⟩ hq hpq
      simp only [Function.comp] at hpq
      by_cases hqj : q1 = j
      · simp [hqj, hne] at hpq
      · simp [hqj] at hpq
        have hqmem : (q1, q2) ∈ (withIdx 0 st.sessions).filter
            (fun p => decide (p.2.refresh_token = S.refresh_token) && p.2.is_active) :=
          List.mem_filter.mpr ⟨hq, by simp [hpq.1, hpq.2]⟩
        rw [hS] at hqmem
        have hqeq : q1 = j ∧ q2 = S := by simpa using hqmem
        exact hqj hqeq.1
    rw [hempty]
    rfl
  have hv2 : verify_token (create_refresh_token u.username u.id now (st.ctr + 1))
      TokenKind.refresh now = true := by
    simp [verify_token, create_refresh_token]
    decide
  have hW2 : (withIdx 0 (st.sessions.set j
      { S with refresh_token := create_refresh_token u.username u.id now (st.ctr + 1), last_activity := now })).filter
      (fun p => decide (p.2.refresh_token =
        create_refresh_token u.username u.id now (st.ctr + 1)) && p.2.is_active) =
      [(j, { S with refresh_token := create_refresh_token u.username u.id now (st.ctr + 1), last_activity := now })] := by
    rw [withIdx_set, List.filter_map]
    have hsingle : (withIdx 0 st.sessions).filter
        ((fun p => decide (p.2.refresh_token =
          create_refresh_token u.username u.id now (st.ctr + 1)) && p.2.is_active) ∘
          (fun p => if p.1 = 0 + j then (0 + j,
            { S with refresh_token := create_refresh_token u.username u.id now (st.ctr + 1), last_activity := now }) else p)) = [(j, S)] := by
      apply filter_eq_singleton (withIdx_nodup 0 st.sessions) hmemW
      · simp only [Function.comp]
        simp [hact]
      · rintro ⟨y1, y2⟩ hy hqy
        simp only [Function.comp] at hqy
        by_cases hyj : y1 = j
        · have hy2 : st.sessions[y1]? = some y2 := getElem?_mem_withIdx hy
          rw [hyj] at hy2
          have hy2S : y2 = S := Option.some.inj (hy2.symm.trans hjget)
          rw [hyj, hy2S]
        · simp [hyj] at hqy
          have hy2mem : y2 ∈ st.sessions := snd_mem_of_mem_withIdx hy
          have hlt2 := hn y2 hy2mem
          rw [hqy.1] at hlt2
          simp [create_refresh_token] at hlt2
    rw [hsingle]
    simp
  refine ⟨{ access_token := create_access_token u.username u.id (ACCESS_TOKEN_EXPIRE_MINUTES * 60) now st.ctr, refresh_token := create_refresh_token u.username u.id now (st.ctr + 1), expires_in := ACCESS_TOKEN_EXPIRE_MINUTES * 60 },
    { st with sessions := st.sessions.set j { S with refresh_token := create_refresh_token u.username u.id now (st.ctr + 1), last_activity := now }, ctr := st.ctr + 2 }, ?_, ?_, ?_, ?_, ?_, ?_⟩
  · simp [AuthService.refresh_token, hv, hS, hu, scalar_one_or_none, hua]
  · exact hne
  · exact List.getElem?_set_self (by simpa using hlt)
  · simp [AuthService.refresh_token, hv, hW1, scalar_one_or_none]
  · have h5 := filter_withIdx_map_snd
      (fun s => decide (s.refresh_token = S.refresh_token) && s.is_active) 0
      (st.sessions.set j { S with refresh_token := create_refresh_token u.username u.id now (st.ctr + 1), last_activity := now })
    rw [hW1] at h5
    exact h5.symm.trans rfl
  · have h6 : (AuthService.refresh_token
        { st with sessions := st.sessions.set j { S with refresh_token := create_refresh_token u.username u.id now (st.ctr + 1), last_activity := now }, ctr := st.ctr + 2 }
        (create_refresh_token u.username u.id now (st.ctr + 1)) now).1 =
        .ok { access_token := create_access_token u.username u.id (ACCESS_TOKEN_EXPIRE_MINUTES * 60) now (st.ctr + 2), refresh_token := create_refresh_token u.username u.id now (st.ctr + 3), expires_in := ACCESS_TOKEN_EXPIRE_MINUTES * 60 } := by
      simp [AuthService.refresh_token, hv2, hW2, hu, scalar_one_or_none, hua]
    exact ⟨_, _, by rw [← h6]⟩

/-- C2 witness: rotating the token of session 100 in the concrete state. -/
theorem refresh_rotation_witness :
    (withIdx 0 wSt.sessions).filter
      (fun p => decide (p.2.refresh_token = (wSess 0).refresh_token) && p.2.is_active) =
      [(0, wSess 0)]
    ∧ (∀ s ∈ wSt.sessions, s.refresh_token.nonce < wSt.ctr)
    ∧ ∃ T st1, AuthService.refresh_token wSt (wSess 0).refresh_token 1000 = (.ok T, st1)
      ∧ T.refresh_token ≠ (wSess 0).refresh_token
      ∧ st1.sessions[0]? =
          some { wSess 0 with refresh_token := T.refresh_token, last_activity := 1000 }
      ∧ (AuthService.refresh_token st1 (wSess 0).refresh_token 1000).1 =
          .error (.http 401 "Invalid refresh token")
      ∧ st1.sessions.filter
          (fun s => decide (s.refresh_token = (wSess 0).refresh_token) && s.is_active) = []
      ∧ ∃ T2 st2, AuthService.refresh_token st1 T.refresh_token 1000 = (.ok T2, st2) :=
  ⟨by decide, by decide,
   refresh_rotation wSt 0 (wSess 0) wUser 1000 (by decide) (by decide) (by decide)
     (by decide) (by decide)⟩

theorem applyEviction_inactive (ev : List Nat) (p : Nat × UserSession)
    (h : p.2.is_active = false) : (AuthService.applyEviction ev p).is_active = false := by
  simp only [AuthService.applyEviction]
  split <;> simp [h]

theorem deactivateIfToken_inactive (tok : Nat) (s : UserSession)
    (h : s.is_active = false) : (AuthService.deactivateIfToken tok s).is_active = false := by
  simp only [AuthService.deactivateIfToken]
  split <;> simp [h]

theorem deactivateIfActiveOfUser_inactive (uid : Nat) (s : UserSession)
    (h : s.is_active = false) :
    (AuthService.deactivateIfActiveOfUser uid s).is_active = false := by
  simp only [AuthService.deactivateIfActiveOfUser]
  split <;> simp [h]

theorem touchIfToken_is_active (tok now : Nat) (s : UserSession) :
    (AuthService.touchIfToken tok now s).is_active = s.is_active := by
  simp only [AuthService.touchIfToken]
  split <;> rfl

/-- One step of any Session Manager operation never reactivates a
deactivated session row. -/
theorem runOp_preserves_inactive (st : St) (op : Op) (i : Nat) (s : UserSession)
    (hget : st.sessions[i]? = some s) (hin : s.is_active = false) :
    ∃ s2, (runOp st op).sessions[i]? = some s2 ∧ s2.is_active = false := by
  have hlt : i < st.sessions.length := (List.getElem?_eq_some_iff.mp hget).1
  cases op with
  | createSession user ip ua rm now cacheOk =>
    have hs1 : ((withIdx 0 st.sessions).map
        (AuthService.applyEviction (AuthService.evictedIdx st user.id)))[i]? =
        some (AuthService.applyEviction (AuthService.evictedIdx st user.id) (0 + i, s)) := by
      rw [List.getElem?_map, withIdx_getElem?, hget]
      rfl
    have hlen : ((withIdx 0 st.sessions).map
        (AuthService.applyEviction (AuthService.evictedIdx st user.id))).length =
        st.sessions.length := by
      rw [List.length_map, withIdx_length]
    have happ : (((withIdx 0 st.sessions).map
        (AuthService.applyEviction (AuthService.evictedIdx st user.id))) ++
        [{ user_id := user.id, session_token := st.ctr + 2,
           refresh_token := create_refresh_token user.username user.id now (st.ctr + 1),
           expires_at := now + (if rm then REFRESH_TOKEN_EXPIRE_DAYS * 86400 else ACCESS_TOKEN_EXPIRE_MINUTES * 60),
           ip_address := ip, user_agent := ua, created_at := now, last_activity := now,
           is_active := true }])[i]? =
        some (AuthService.applyEviction (AuthService.evictedIdx st user.id) (0 + i, s)) := by
      rw [List.getElem?_append_left (hlen ▸ hlt)]
      exact hs1
    refine ⟨AuthService.applyEviction (AuthService.evictedIdx st user.id) (0 + i, s), ?_,
      applyEviction_inactive _ _ (by simpa using hin)⟩
    cases cacheOk with
    | true => exact happ
    | false => exact happ
  | refresh tok now =>
    simp only [runOp, AuthService.refresh_token]
    split
    · exact ⟨s, hget, hin⟩
    · split
      · exact ⟨s, hget, hin⟩
      · exact ⟨s, hget, hin⟩
      · next js hjs =>
        split
        · exact ⟨s, hget, hin⟩
        · exact ⟨s, hget, hin⟩
        · next user huser =>
          split
          · exact ⟨s, hget, hin⟩
          · have hjmemf := scalar_ok_some_iff.mp hjs ▸ List.mem_singleton.mpr rfl
            have hjmem : (js.1, js.2) ∈ withIdx 0 st.sessions := by
              rw [Prod.mk.eta]
              exact List.mem_of_mem_filter hjmemf
            have hjact : js.2.is_active = true := by
              have hconj : js.2.refresh_token = tok ∧ js.2.is_active = true := by
                simpa using List.of_mem_filter hjmemf
              exact hconj.2
            have hjget2 : st.sessions[js.1]? = some js.2 := getElem?_mem_withIdx hjmem
            have hne2 : js.1 ≠ i := by
              intro he
              rw [he, hget] at hjget2
              rw [← Option.some.inj hjget2] at hjact
              rw [hin] at hjact
              exact Bool.false_ne_true hjact
            refine ⟨s, ?_, hin⟩
            rw [List.getElem?_set_ne hne2]
            exact hget
  | logout tok =>
    refine ⟨AuthService.deactivateIfToken tok s, ?_, deactivateIfToken_inactive tok s hin⟩
    simp only [runOp, AuthService.logout_user]
    rw [List.getElem?_map, hget]
    rfl
  | logoutAll uid =>
    refine ⟨AuthService.deactivateIfActiveOfUser uid s, ?_,
      deactivateIfActiveOfUser_inactive uid s hin⟩
    simp only [runOp, AuthService.logout_all_sessions]
    rw [List.getElem?_map, hget]
    rfl
  | verify tok now =>
    simp only [runOp, AuthService.verify_session]
    split
    · exact ⟨s, hget, hin⟩
    · split
      · exact ⟨s, hget, hin⟩
      · exact ⟨s, hget, hin⟩
      · split
        · exact ⟨s, hget, hin⟩
        · refine ⟨AuthService.touchIfToken tok now s, ?_, ?_⟩
          · rw [List.getElem?_map, hget]
            rfl
          · rw [touchIfToken_is_active]
            exact hin
  | authenticate uname pwd now =>
    simp only [runOp, AuthService.authenticate_user]
    split
    · exact ⟨s, hget, hin⟩
    · exact ⟨s, hget, hin⟩
    · split
      · exact ⟨s, hget, hin⟩
      · split
        · exact ⟨s, hget, hin⟩
        · exact ⟨s, hget, hin⟩

/-- C5: deactivation is terminal: once a session row is inactive, no
reachable sequence of Session Manager operations (session creation,
refresh, logout, bulk logout, verification, authentication) ever sets its
active flag back to true. -/
theorem deactivation_terminal (ops : List Op) (st : St) (i : Nat) (s : UserSession)
    (hget : st.sessions[i]? = some s) (hin : s.is_active = false) :
    ∃ s2, (ops.foldl runOp st).sessions[i]? = some s2 ∧ s2.is_active = false := by
  induction ops generalizing st s with
  | nil => exact ⟨s, hget, hin⟩
  | cons op rest ih =>
    obtain ⟨s1, hg1, hi1⟩ := runOp_preserves_inactive st op i s hget hin
    rw [List.foldl_cons]
    exact ih (runOp st op) s1 hg1 hi1

/-- C5 witness: the deactivated session of `wStMix` stays inactive across
a concrete operation sequence. -/
theorem deactivation_terminal_witness :
    wStMix.sessions[0]? = some { wSess 0 with is_active := false }
    ∧ ∃ s2, (([Op.createSession wUser none none false 7 true,
        Op.refresh (wSess 1).refresh_token 8, Op.logout 101,
        Op.verify 100 9, Op.authenticate "alice" "Passw0rd" 10]).foldl runOp
        wStMix).sessions[0]? = some s2 ∧ s2.is_active = false :=
  ⟨rfl, deactivation_terminal _ wStMix 0 { wSess 0 with is_active := false } rfl rfl⟩

theorem contains_eq_true_iff {l : List Nat} {a : Nat} :
    l.contains a = true ↔ a ∈ l :=
  List.elem_iff

theorem activeOfUser_applyEviction (uid : Nat) (ev : List Nat) (p : Nat × UserSession) :
    AuthService.activeOfUser uid (AuthService.applyEviction ev p) =
      (!ev.contains p.1 && AuthService.activeOfUser uid p.2) := by
  by_cases h : p.1 ∈ ev
  · simp [AuthService.applyEviction, AuthService.activeOfUser, h]
  · simp [AuthService.applyEviction, AuthService.activeOfUser, h]

/-- Counting active sessions of a user after deactivating the fetched rows
whose identities are listed in `ev` and appending one fresh active row:
when a permutation `A` of the user's active `(index, row)` pairs splits at
`k` into survivors (identity not in `ev`) and evicted rows (identity in
`ev`), exactly `k + 1` active rows remain. -/
theorem count_after_evict (l : List UserSession) (uid : Nat) (ev : List Nat)
    (row : UserSession) (hrow : AuthService.activeOfUser uid row = true)
    (A : List (Nat × UserSession))
    (hperm : List.Perm A
      ((withIdx 0 l).filter (fun p => AuthService.activeOfUser uid p.2)))
    (k : Nat) (hk : k ≤ A.length)
    (hcf : ∀ p ∈ A.take k, p.1 ∉ ev)
    (hct : ∀ p ∈ A.drop k, p.1 ∈ ev) :
    (((withIdx 0 l).map (AuthService.applyEviction ev) ++ [row]).filter
      (AuthService.activeOfUser uid)).length = k + 1 := by
  rw [List.filter_append, List.length_append]
  have h1 : List.filter (AuthService.activeOfUser uid) [row] = [row] := by
    simp [hrow]
  rw [h1]
  have h2 : (List.filter (AuthService.activeOfUser uid)
      ((withIdx 0 l).map (AuthService.applyEviction ev))).length = k := by
    rw [List.filter_map, List.length_map]
    have h3 : (withIdx 0 l).filter
        (AuthService.activeOfUser uid ∘ AuthService.applyEviction ev) =
        (withIdx 0 l).filter
          (fun p => !ev.contains p.1 && AuthService.activeOfUser uid p.2) :=
      List.filter_congr (fun p _ => by
        simp [Function.comp, activeOfUser_applyEviction])
    rw [h3,
      ← @List.filter_filter (Nat × UserSession) (fun p => !ev.contains p.1)
        (fun p => AuthService.activeOfUser uid p.2) (withIdx 0 l),
      ← (List.Perm.filter (fun p => !ev.contains p.1) hperm).length_eq]
    have hA : A = A.take k ++ A.drop k := (List.take_append_drop k A).symm
    conv_lhs => rw [hA]
    rw [List.filter_append, List.length_append]
    have h5 : List.filter (fun p => !ev.contains p.1) (A.take k) = A.take k :=
      List.filter_eq_self.mpr (fun p hp => by simp [hcf p hp])
    have h6 : List.filter (fun p => !ev.contains p.1) (A.drop k) = [] :=
      List.filter_eq_nil_iff.mpr (fun p hp => by simp [hct p hp])
    rw [h5, h6]
    simp [List.length_take, Nat.min_eq_left hk]
  rw [h2]
  rfl

/-- The durable rows after a session creation, position by position: an
existing row is the old row with the eviction pass applied to it. -/
theorem create_sessions_getElem (st : St) (user : User) (ip ua : Option String)
    (rm : Bool) (now : Nat) (cacheOk : Bool) (i : Nat) (s : UserSession)
    (hget : st.sessions[i]? = some s) :
    (AuthService.create_user_session st user ip ua rm now cacheOk).2.sessions[i]? =
      some (AuthService.applyEviction (AuthService.evictedIdx st user.id) (0 + i, s)) := by
  have hlt : i < st.sessions.length := (List.getElem?_eq_some_iff.mp hget).1
  have hs1 : ((withIdx 0 st.sessions).map
      (AuthService.applyEviction (AuthService.evictedIdx st user.id)))[i]? =
      some (AuthService.applyEviction (AuthService.evictedIdx st user.id) (0 + i, s)) := by
    rw [List.getElem?_map, withIdx_getElem?, hget]
    rfl
  have hlen : ((withIdx 0 st.sessions).map
      (AuthService.applyEviction (AuthService.evictedIdx st user.id))).length =
      st.sessions.length := by
    rw [List.length_map, withIdx_length]
  have happ : (((withIdx 0 st.sessions).map
      (AuthService.applyEviction (AuthService.evictedIdx st user.id))) ++
      [{ user_id := user.id, session_token := st.ctr + 2,
         refresh_token := create_refresh_token user.username user.id now (st.ctr + 1),
         expires_at := now + (if rm then REFRESH_TOKEN_EXPIRE_DAYS * 86400 else ACCESS_TOKEN_EXPIRE_MINUTES * 60),
         ip_address := ip, user_agent := ua, created_at := now, last_activity := now,
         is_active := true }])[i]? =
      some (AuthService.applyEviction (AuthService.evictedIdx st user.id) (0 + i, s)) := by
    rw [List.getElem?_append_left (hlen ▸ hlt)]
    exact hs1
  cases cacheOk with
  | true => exact happ
  | false => exact happ

/-- C1: when a user already holds at least `MAX_SESSIONS_PER_USER` active
sessions, `create_user_session` deactivates exactly the sessions at or
beyond position `MAX_SESSIONS_PER_USER - 1` of the newest-first ordering
(the strictly newer ones are untouched), the freshly inserted session is
active (never evicted by its own creation), and afterwards the user holds
exactly `MAX_SESSIONS_PER_USER` active sessions. -/
theorem session_cap_enforced (st : St) (user : User) (ip ua : Option String)
    (rm : Bool) (now : Nat)
    (hM : MAX_SESSIONS_PER_USER ≤ (AuthService.activeOrdered st user.id).length) :
    countActive (AuthService.create_user_session st user ip ua rm now true).2 user.id =
      MAX_SESSIONS_PER_USER
    ∧ (∀ p ∈ (AuthService.activeOrdered st user.id).drop (MAX_SESSIONS_PER_USER - 1),
        ∃ s2, (AuthService.create_user_session st user ip ua rm now true).2.sessions[p.1]? =
          some s2 ∧ s2.is_active = false)
    ∧ (∀ p ∈ (AuthService.activeOrdered st user.id).take (MAX_SESSIONS_PER_USER - 1),
        (AuthService.create_user_session st user ip ua rm now true).2.sessions[p.1]? =
          some p.2)
    ∧ ((AuthService.create_user_session st user ip ua rm now true).2.sessions.getLast?.map
        (fun s => s.is_active)) = some true := by
  have hev : AuthService.evictedIdx st user.id =
      ((AuthService.activeOrdered st user.id).drop (MAX_SESSIONS_PER_USER - 1)).map
        (fun p => p.1) := by
    simp [AuthService.evictedIdx, hM]
  have hperm : List.Perm (AuthService.activeOrdered st user.id)
      ((withIdx 0 st.sessions).filter (fun p => AuthService.activeOfUser user.id p.2)) :=
    sortByCreatedDesc_perm _
  have hndA : ((AuthService.activeOrdered st user.id).map Prod.fst).Nodup := by
    have hnd1 : (((withIdx 0 st.sessions).filter
        (fun p => AuthService.activeOfUser user.id p.2)).map Prod.fst).Nodup :=
      List.Nodup.sublist
        (List.Sublist.map Prod.fst
          (@List.filter_sublist (Nat × UserSession)
            (fun p => AuthService.activeOfUser user.id p.2) (withIdx 0 st.sessions)))
        (withIdx_nodup_fst 0 st.sessions)
    exact ((hperm.map Prod.fst).symm).nodup hnd1
  have hcf : ∀ p ∈ (AuthService.activeOrdered st user.id).take (MAX_SESSIONS_PER_USER - 1),
      p.1 ∉ AuthService.evictedIdx st user.id := by
    intro p hp
    rw [hev]
    have hnd2 := hndA
    rw [← List.take_append_drop (MAX_SESSIONS_PER_USER - 1)
      (AuthService.activeOrdered st user.id), List.map_append] at hnd2
    rcases List.nodup_append.mp hnd2 with ⟨h1a, h2a, hdj⟩
    have hfst : p.1 ∈ ((AuthService.activeOrdered st user.id).take
        (MAX_SESSIONS_PER_USER - 1)).map Prod.fst := List.mem_map_of_mem Prod.fst hp
    intro hmm
    exact hdj hfst (by simpa using hmm)
  have hct : ∀ p ∈ (AuthService.activeOrdered st user.id).drop (MAX_SESSIONS_PER_USER - 1),
      p.1 ∈ AuthService.evictedIdx st user.id := by
    intro p hp
    rw [hev]
    exact List.mem_map_of_mem (fun p => p.1) hp
  have hgetA : ∀ p ∈ AuthService.activeOrdered st user.id, st.sessions[p.1]? = some p.2 := by
    rintro ⟨p1, p2⟩ hp
    exact getElem?_mem_withIdx
      (List.mem_of_mem_filter ((List.Perm.mem_iff hperm).mp hp))
  refine ⟨?_, ?_, ?_, ?_⟩
  · have hcnt := count_after_evict st.sessions user.id (AuthService.evictedIdx st user.id)
      { user_id := user.id, session_token := st.ctr + 2,
        refresh_token := create_refresh_token user.username user.id now (st.ctr + 1),
        expires_at := now + (if rm then REFRESH_TOKEN_EXPIRE_DAYS * 86400 else ACCESS_TOKEN_EXPIRE_MINUTES * 60),
        ip_address := ip, user_agent := ua, created_at := now, last_activity := now,
        is_active := true }
      (by simp [AuthService.activeOfUser])
      (AuthService.activeOrdered st user.id) hperm (MAX_SESSIONS_PER_USER - 1)
      (by omega) hcf hct
    exact hcnt.trans (by decide)
  · intro p hp
    have hg := hgetA p (List.drop_subset _ _ hp)
    refine ⟨AuthService.applyEviction (AuthService.evictedIdx st user.id) (0 + p.1, p.2),
      create_sessions_getElem st user ip ua rm now true p.1 p.2 hg, ?_⟩
    have hc := hct p hp
    simp [AuthService.applyEviction, hc]
  · intro p hp
    have hg := hgetA p (List.take_subset _ _ hp)
    have hc := hcf p hp
    have heq : AuthService.applyEviction (AuthService.evictedIdx st user.id)
        (0 + p.1, p.2) = p.2 := by
      simp [AuthService.applyEviction, hc]
    rw [create_sessions_getElem st user ip ua rm now true p.1 p.2 hg, heq]
  · have hlast : (AuthService.create_user_session st user ip ua rm now true).2.sessions.getLast? =
        some { user_id := user.id, session_token := st.ctr + 2, refresh_token := create_refresh_token user.username user.id now (st.ctr + 1), expires_at := now + (if rm then REFRESH_TOKEN_EXPIRE_DAYS * 86400 else ACCESS_TOKEN_EXPIRE_MINUTES * 60), ip_address := ip, user_agent := ua, created_at := now, last_activity := now, is_active := true } :=
      List.getLast?_concat _
    rw [hlast]
    rfl

/-- C1 witness: creating a sixth session for a user already at the cap of
five deactivates exactly the oldest one and leaves five active. -/
theorem session_cap_enforced_witness :
    MAX_SESSIONS_PER_USER ≤ (AuthService.activeOrdered wSt 1).length
    ∧ countActive (AuthService.create_user_session wSt wUser none none false 1000 true).2 1 =
        MAX_SESSIONS_PER_USER :=
  ⟨by decide,
   (session_cap_enforced wSt wUser none none false 1000 (by decide)).1⟩

end ChronoChat
